import Mathlib

/-! Verification of the AMR flashcard scheduling core.

Shallow embedding of the core functions of `src/api/index.py` (the
"Adaptive Memory Retention" engine): the configuration constants,
`calculate_retention`, `schedule_next_review` and
`update_card_on_review`, together with proofs of the specified
properties.

Modelling conventions:
* Python `float` arithmetic is modelled exactly: card strengths and the
  quality multipliers as rationals (`ℚ`); quantities that pass through
  `math.exp` / `math.log` as reals (`ℝ`).
* A `datetime` value is a real number of seconds since the epoch;
  `timedelta(days = d)` adds `86400 * d` seconds, and
  `.total_seconds() / 86400.0` converts a difference to days.
* `datetime.isoformat` and `datetime.fromisoformat` are serialization to
  and from ISO-8601 strings; they are Python standard-library functions
  external to this repository, so they are taken as explicit function
  parameters (`isoformat : ℝ → String`, `fromisoformat : String → ℝ`).
* `calculate_retention` (line 66) and `update_card_on_review` (line 81)
  call `datetime.utcnow()` internally; the value returned by that
  internal system-clock read is made explicit as a trailing parameter
  `sysNow : ℝ`.  `schedule_next_review` takes `now` explicitly in the
  source and has no such parameter.
* `raise ValueError(msg)` is modelled as `Except.error msg`.
* The card dict is modelled with exactly the keys the core reads or
  writes (`strength`, `box`, `last_review`, `next_review`, `history`);
  `history := none` models a dict that has no `"history"` key yet.
-/

namespace AMR

/-- Python truthiness of an `Optional[str]` value: `None` and the empty
string are falsy.  This is the test performed by
`if not last_review:` on line 63 of the source. -/
def strTruthy : Option String → Bool
  | none => false
  | some s => !(s == "")

/-- `DEFAULT_STRENGTH = 1.0` (line 20). -/
def DEFAULT_STRENGTH : ℚ := 1.0

/-- `RETENTION_TARGET = 0.85` (line 21). -/
noncomputable def RETENTION_TARGET : ℝ := 0.85

/-- `MIN_INTERVAL_DAYS = 0.5` (line 22). -/
noncomputable def MIN_INTERVAL_DAYS : ℝ := 0.5

/-- `BOX_COUNT = 5` (line 23). -/
def BOX_COUNT : Int := 5

/-- The `QUALITY_MULTIPLIER` dict (lines 24-31), as a partial map on
integer keys; `none` models a missing key. -/
def QUALITY_MULTIPLIER (q : Int) : Option ℚ :=
  if q = 5 then some 1.30
  else if q = 4 then some 1.15
  else if q = 3 then some 1.05
  else if q = 2 then some 0.85
  else if q = 1 then some 0.6
  else if q = 0 then some 0.45
  else none

/-- The history-entry dict built by `update_card_on_review`
(lines 100-107). -/
structure ReviewEvent where
  time : String
  quality : Int
  old_strength : ℚ
  old_box : Int
  new_strength : ℚ
  new_box : Int
deriving DecidableEq

/-- The card dict, restricted to the keys the core reads or writes. -/
structure Card where
  strength : ℚ
  box : Int
  last_review : Option String
  next_review : Option String
  history : Option (List ReviewEvent)
deriving DecidableEq

/-- `calculate_retention(strength, last_review)` (lines 61-67).
`fromisoformat` models `datetime.fromisoformat`; `sysNow` is the value
returned by the internal `datetime.utcnow()` call on line 66. -/
noncomputable def calculate_retention (fromisoformat : String → ℝ)
    (strength : ℝ) (last_review : Option String) (sysNow : ℝ) : ℝ :=
  if strTruthy last_review = false then 0.0
  else
    let last_dt := fromisoformat (last_review.getD "")
    let t_days := (sysNow - last_dt) / 86400.0
    Real.exp (-t_days / max 1e-6 strength)

/-- The `next_dt` datetime computed by `schedule_next_review`
(lines 69-73) before formatting:
`now + timedelta(days = max(-strength * log(RETENTION_TARGET), MIN_INTERVAL_DAYS))`. -/
noncomputable def schedule_next_review_dt (strength : ℝ) (now : ℝ) : ℝ :=
  let t_days := -strength * Real.log RETENTION_TARGET
  let t_days2 := max t_days MIN_INTERVAL_DAYS
  now + 86400 * t_days2

/-- `schedule_next_review(strength, now)` (lines 69-74) returns
`next_dt.isoformat()`. -/
noncomputable def schedule_next_review (isoformat : ℝ → String)
    (strength : ℝ) (now : ℝ) : String :=
  isoformat (schedule_next_review_dt strength now)

/-- The strength update of lines 84-89, as a function of the old
strength and the quality:
`max(0.1, s * QUALITY_MULTIPLIER.get(q, 1.0))`, plus `0.2` when
`q == 5`. -/
def reviewStrength (s : ℚ) (q : Int) : ℚ :=
  let mult := (QUALITY_MULTIPLIER q).getD 1.0
  let ns0 := max 0.1 (s * mult)
  if q = 5 then ns0 + 0.2 else ns0

/-- The Leitner-box update of lines 92-97, as a function of the old box
and the quality. -/
def reviewBox (b : Int) (q : Int) : Int :=
  if q ≥ 4 then min BOX_COUNT (b + 1)
  else if q ≤ 2 then 1
  else b

/-- The record returned by a successful `update_card_on_review` call
(lines 100-119), with the single internal `now` sample `sysNow`.
`update_card_on_review_ok` below proves by `rfl` that this names exactly
the value the let-chain of `update_card_on_review` constructs. -/
noncomputable def reviewedCard (isoformat : ℝ → String) (card : Card)
    (q : Int) (sysNow : ℝ) : Card :=
  { strength := reviewStrength card.strength q
    box := reviewBox card.box q
    last_review := some (isoformat sysNow)
    next_review := some (schedule_next_review isoformat
      ((reviewStrength card.strength q : ℚ) : ℝ) sysNow)
    history := some (card.history.getD [] ++
      [{ time := isoformat sysNow
         quality := q
         old_strength := card.strength
         old_box := card.box
         new_strength := reviewStrength card.strength q
         new_box := reviewBox card.box q }]) }

/-- `update_card_on_review(card_data, quality)` (lines 76-119).
`isoformat` models `datetime.isoformat`; `sysNow` is the value returned
by the internal `datetime.utcnow()` call on line 81.  The
`raise ValueError("Quality must be 0-5")` on line 79 happens before any
field of the card is written, which the embedding reflects by returning
`Except.error` before constructing any updated record. -/
noncomputable def update_card_on_review (isoformat : ℝ → String)
    (card_data : Card) (quality : Int) (sysNow : ℝ) : Except String Card :=
  if quality < 0 ∨ quality > 5 then .error "Quality must be 0-5"
  else
    let now := sysNow
    let mult := (QUALITY_MULTIPLIER quality).getD 1.0
    let ns0 := max 0.1 (card_data.strength * mult)
    let new_strength := if quality = 5 then ns0 + 0.2 else ns0
    let new_box : Int :=
      if quality ≥ 4 then min BOX_COUNT (card_data.box + 1)
      else if quality ≤ 2 then 1
      else card_data.box
    let history_entry : ReviewEvent :=
      { time := isoformat now
        quality := quality
        old_strength := card_data.strength
        old_box := card_data.box
        new_strength := new_strength
        new_box := new_box }
    .ok { strength := new_strength
          box := new_box
          last_review := some (isoformat now)
          next_review := some (schedule_next_review isoformat (new_strength : ℝ) now)
          history := some (card_data.history.getD [] ++ [history_entry]) }

/-- Iterate `update_card_on_review` over a list of `(quality, sysNow)`
pairs (each call samples its own clock value), stopping at the first
error.  Models a sequence of review calls on one card. -/
noncomputable def applyReviews (isoformat : ℝ → String) :
    List (Int × ℝ) → Card → Except String Card
  | [], card => .ok card
  | (q, t) :: rest, card =>
    match update_card_on_review isoformat card q t with
    | .error e => .error e
    | .ok c2 => applyReviews isoformat rest c2

/-- A freshly created card: default strength `1.0`, box `1`, never
reviewed, no history key. -/
def card0 : Card :=
  { strength := 1
    box := 1
    last_review := none
    next_review := none
    history := none }

lemma update_card_on_review_ok (isoformat : ℝ → String) (card : Card)
    (q : Int) (sysNow : ℝ) (h : ¬(q < 0 ∨ q > 5)) :
    update_card_on_review isoformat card q sysNow
      = .ok (reviewedCard isoformat card q sysNow) := by
  unfold update_card_on_review reviewedCard reviewStrength reviewBox
  rw [if_neg h]

lemma update_card_on_review_err (isoformat : ℝ → String) (card : Card)
    (q : Int) (sysNow : ℝ) (h : q < 0 ∨ q > 5) :
    update_card_on_review isoformat card q sysNow
      = .error "Quality must be 0-5" := by
  unfold update_card_on_review
  rw [if_pos h]

/-- Claim C1: for every card record with strength `s > 0` and every
quality `q ∈ [0,5]`, `update_card_on_review` succeeds and sets the new
strength to `max(0.1, s * m(q))` where `m` is the fixed table
`{5: 1.30, 4: 1.15, 3: 1.05, 2: 0.85, 1: 0.60, 0: 0.45}`, and when
`q = 5` exactly it additionally adds a flat bonus of `0.2` after the
floor is applied. -/
theorem claim1_strength_update (isoformat : ℝ → String) (card : Card)
    (q : Int) (sysNow : ℝ) (hs : 0 < card.strength)
    (h0 : 0 ≤ q) (h5 : q ≤ 5) :
    ∃ c2, update_card_on_review isoformat card q sysNow = .ok c2 ∧
      c2.strength =
        if q = 5 then max 0.1 (card.strength * 1.30) + 0.2
        else if q = 4 then max 0.1 (card.strength * 1.15)
        else if q = 3 then max 0.1 (card.strength * 1.05)
        else if q = 2 then max 0.1 (card.strength * 0.85)
        else if q = 1 then max 0.1 (card.strength * 0.60)
        else max 0.1 (card.strength * 0.45) := by
  refine ⟨_, update_card_on_review_ok isoformat card q sysNow (by omega), ?_⟩
  interval_cases q <;>
    simp [reviewedCard, reviewStrength, QUALITY_MULTIPLIER] <;> norm_num

/-- Witness for C1: `card0` (strength `1`, box `1`) reviewed with
quality `5`. -/
theorem claim1_witness :
    0 < card0.strength ∧ (0:Int) ≤ 5 ∧ (5:Int) ≤ 5 ∧
      ∃ c2, update_card_on_review (fun _ => "") card0 5 0 = .ok c2 ∧
        c2.strength =
          if (5:Int) = 5 then max 0.1 (card0.strength * 1.30) + 0.2
          else if (5:Int) = 4 then max 0.1 (card0.strength * 1.15)
          else if (5:Int) = 3 then max 0.1 (card0.strength * 1.05)
          else if (5:Int) = 2 then max 0.1 (card0.strength * 0.85)
          else if (5:Int) = 1 then max 0.1 (card0.strength * 0.60)
          else max 0.1 (card0.strength * 0.45) :=
  ⟨by decide, by decide, by decide,
    claim1_strength_update (fun _ => "") card0 5 0 (by decide) (by decide)
      (by decide)⟩

/-- Claim C2: for every card record with box `b` and every quality
`q ∈ [0,5]`, `update_card_on_review` succeeds and sets the new box to
`min(5, b + 1)` when `q ≥ 4`, to `1` when `q ≤ 2`, and leaves it equal
to `b` when `q = 3`; the box transition depends only on the quality
bucket, not on the strength. -/
theorem claim2_box_transition (isoformat : ℝ → String) (card : Card)
    (q : Int) (sysNow : ℝ) (h0 : 0 ≤ q) (h5 : q ≤ 5) :
    ∃ c2, update_card_on_review isoformat card q sysNow = .ok c2 ∧
      c2.box = (if 4 ≤ q then min 5 (card.box + 1)
                else if q ≤ 2 then 1
                else card.box) ∧
      ∀ s2 : ℚ, ∃ c3,
        update_card_on_review isoformat
            { card with strength := s2 } q sysNow = .ok c3 ∧
          c3.box = c2.box := by
  refine ⟨_, update_card_on_review_ok isoformat card q sysNow (by omega),
    ?_, ?_⟩
  · simp [reviewedCard, reviewBox, BOX_COUNT]
  · intro s2
    exact ⟨_, update_card_on_review_ok isoformat _ q sysNow (by omega), rfl⟩

/-- Witness for C2: `card0` reviewed with quality `0`. -/
theorem claim2_witness :
    (0:Int) ≤ 0 ∧ (0:Int) ≤ 5 ∧
      ∃ c2, update_card_on_review (fun _ => "") card0 0 0 = .ok c2 ∧
        c2.box = (if 4 ≤ (0:Int) then min 5 (card0.box + 1)
                  else if (0:Int) ≤ 2 then 1
                  else card0.box) ∧
        ∀ s2 : ℚ, ∃ c3,
          update_card_on_review (fun _ => "")
              { card0 with strength := s2 } 0 0 = .ok c3 ∧
            c3.box = c2.box :=
  ⟨by decide, by decide,
    claim2_box_transition (fun _ => "") card0 0 0 (by decide) (by decide)⟩

/-- Claim C3: `update_card_on_review` fails with the invalid-quality
error if and only if the quality is outside `[0,5]`; the check happens
before any mutation, so on the error path no updated record is produced
at all (in particular no field changes and no history entry is
appended). -/
theorem claim3_invalid_quality (isoformat : ℝ → String) (card : Card)
    (q : Int) (sysNow : ℝ) :
    (update_card_on_review isoformat card q sysNow
        = .error "Quality must be 0-5" ↔ (q < 0 ∨ 5 < q)) ∧
    ((q < 0 ∨ 5 < q) →
      ∀ c2, update_card_on_review isoformat card q sysNow ≠ .ok c2) := by
  by_cases h : q < 0 ∨ q > 5
  · refine ⟨⟨fun _ => h, fun _ => update_card_on_review_err _ _ _ _ h⟩,
      fun _ c2 hc => ?_⟩
    rw [update_card_on_review_err _ _ _ _ h] at hc
    exact absurd hc (by simp)
  · refine ⟨⟨fun he => ?_, fun hq => absurd hq h⟩, fun hq => absurd hq h⟩
    rw [update_card_on_review_ok _ _ _ _ h] at he
    exact absurd he (by simp)

/-- Witness for C3: quality `6` on `card0` is rejected with the
`ValueError` message and produces no updated record. -/
theorem claim3_witness :
    update_card_on_review (fun _ => "") card0 6 0
      = .error "Quality must be 0-5" :=
  (claim3_invalid_quality (fun _ => "") card0 6 0).1.mpr
    (Or.inr (by decide))

/-- Claim C4: `calculate_retention` returns exactly `0.0` when
`last_review` is absent, and on a nonempty timestamp string returns
`exp(-t_days / max(1e-6, strength))` where `t_days` is the elapsed time
from `last_review` to the current time in (possibly fractional) days.
(The empty string, which is also falsy in Python, is claim C10.) -/
theorem claim4_retention_formula (fromisoformat : String → ℝ)
    (strength sysNow : ℝ) (last_review : Option String) :
    (last_review = none →
      calculate_retention fromisoformat strength last_review sysNow = 0.0) ∧
    (∀ s : String, last_review = some s → s ≠ "" →
      calculate_retention fromisoformat strength last_review sysNow
        = Real.exp (-((sysNow - fromisoformat s) / 86400.0)
            / max 1e-6 strength)) := by
  constructor
  · rintro rfl
    simp [calculate_retention, strTruthy]
  · rintro s rfl hs
    rw [calculate_retention, if_neg (by simp [strTruthy, hs])]
    rfl

/-- Witness for C4: a parse function returning the epoch, strength `1`,
and the clock one day later. -/
theorem claim4_witness :
    ("x" ≠ "") ∧
      calculate_retention (fun _ => 0) 1 (some "x") 86400
        = Real.exp (-((86400 - (fun _ : String => (0:ℝ)) "x") / 86400.0)
            / max 1e-6 1) :=
  ⟨by decide,
    (claim4_retention_formula (fun _ => 0) 1 86400 (some "x")).2 "x" rfl
      (by decide)⟩

/-- Claim C10: for every strength, `calculate_retention` applied to the
empty string returns exactly `0.0`, the same as an absent `last_review`;
no timestamp parsing is attempted (the result is independent of the
parse function). -/
theorem claim10_falsy_empty (fromisoformat : String → ℝ)
    (strength sysNow : ℝ) :
    calculate_retention fromisoformat strength (some "") sysNow = 0.0 ∧
    calculate_retention fromisoformat strength none sysNow = 0.0 := by
  constructor
  · simp [calculate_retention, strTruthy]
  · simp [calculate_retention, strTruthy]

/-- Claim C5: for every `strength > 0` and timestamp `now`,
`schedule_next_review` returns the ISO form of
`now + max(0.5, -strength * ln 0.85)` days, so the scheduled time is at
least `MIN_INTERVAL_DAYS = 0.5` days after `now`, with equality exactly
when `-strength * ln 0.85 ≤ 0.5`. -/
theorem claim5_schedule (strength now : ℝ) (hs : 0 < strength) :
    schedule_next_review_dt strength now
        = now + 86400 * max 0.5 (-strength * Real.log 0.85) ∧
    (∀ isoformat : ℝ → String,
      schedule_next_review isoformat strength now
        = isoformat (now + 86400 * max 0.5 (-strength * Real.log 0.85))) ∧
    now + 86400 * 0.5 ≤ schedule_next_review_dt strength now ∧
    (schedule_next_review_dt strength now = now + 86400 * 0.5 ↔
      -strength * Real.log 0.85 ≤ 0.5) := by
  have hdt : schedule_next_review_dt strength now
      = now + 86400 * max 0.5 (-strength * Real.log 0.85) := by
    rw [schedule_next_review_dt, RETENTION_TARGET, MIN_INTERVAL_DAYS,
      max_comm]
  refine ⟨hdt, fun isoformat => by rw [schedule_next_review, hdt], ?_, ?_⟩
  · rw [hdt]
    have h1 : (0.5:ℝ) ≤ max 0.5 (-strength * Real.log 0.85) :=
      le_max_left _ _
    nlinarith
  · rw [hdt, add_right_inj,
      mul_right_inj' (by norm_num : (86400:ℝ) ≠ 0), max_eq_left_iff]

/-- Witness for C5 at `strength = 1`, `now = 0`. -/
theorem claim5_witness :
    (0:ℝ) < 1 ∧ (0:ℝ) + 86400 * 0.5 ≤ schedule_next_review_dt 1 0 :=
  ⟨by norm_num, (claim5_schedule 1 0 (by norm_num)).2.2.1⟩

lemma reviewBox_bounds (b q : Int) (hb1 : 1 ≤ b) (hb2 : b ≤ 5) :
    1 ≤ reviewBox b q ∧ reviewBox b q ≤ 5 := by
  rw [reviewBox, BOX_COUNT]
  split_ifs with h1 h2
  · exact ⟨le_min (by omega) (by omega), min_le_left _ _⟩
  · omega
  · omega

lemma reviewStrength_floor (s : ℚ) (q : Int) :
    (0.1:ℚ) ≤ reviewStrength s q := by
  rw [reviewStrength]
  split_ifs
  · have h := le_max_left (0.1:ℚ) (s * ((QUALITY_MULTIPLIER q).getD 1.0))
    linarith
  · exact le_max_left _ _

lemma applyReviews_inv (isoformat : ℝ → String) :
    ∀ (l : List (Int × ℝ)) (card c2 : Card), 1 ≤ card.box →
      card.box ≤ 5 → (0.1:ℚ) ≤ card.strength →
      applyReviews isoformat l card = .ok c2 →
      1 ≤ c2.box ∧ c2.box ≤ 5 ∧ (0.1:ℚ) ≤ c2.strength
  | [], card, c2, hb1, hb2, hst, h => by
    rw [applyReviews] at h
    cases h
    exact ⟨hb1, hb2, hst⟩
  | (q, t) :: rest, card, c2, hb1, hb2, hst, h => by
    rw [applyReviews] at h
    by_cases hq : q < 0 ∨ q > 5
    · rw [update_card_on_review_err isoformat card q t hq] at h
      exact absurd h (by simp)
    · rw [update_card_on_review_ok isoformat card q t hq] at h
      have hbox := reviewBox_bounds card.box q hb1 hb2
      exact applyReviews_inv isoformat rest _ c2 hbox.1 hbox.2
        (reviewStrength_floor card.strength q) h

/-- Claim C6: starting from a card with box in `[1,5]` and strength
`> 0`, every successful sequence of `update_card_on_review` calls keeps
the box in `[1,5]`, and after at least one review the strength is at
least the floor `0.1`; since every prefix of a successful run is itself
a successful run, this bounds the record after every step. -/
theorem claim6_invariants (isoformat : ℝ → String) (card : Card)
    (l : List (Int × ℝ)) (c2 : Card) (hb1 : 1 ≤ card.box)
    (hb2 : card.box ≤ 5) (hs : 0 < card.strength)
    (h : applyReviews isoformat l card = .ok c2) :
    (1 ≤ c2.box ∧ c2.box ≤ 5) ∧ (l ≠ [] → (0.1:ℚ) ≤ c2.strength) := by
  cases l with
  | nil =>
    rw [applyReviews] at h
    cases h
    exact ⟨⟨hb1, hb2⟩, by simp⟩
  | cons p rest =>
    obtain ⟨q, t⟩ := p
    rw [applyReviews] at h
    by_cases hq : q < 0 ∨ q > 5
    · rw [update_card_on_review_err isoformat card q t hq] at h
      exact absurd h (by simp)
    · rw [update_card_on_review_ok isoformat card q t hq] at h
      have hbox := reviewBox_bounds card.box q hb1 hb2
      have hres := applyReviews_inv isoformat rest _ c2 hbox.1 hbox.2
        (reviewStrength_floor card.strength q) h
      exact ⟨⟨hres.1, hres.2.1⟩, fun _ => hres.2.2⟩

/-- Witness for C6: one perfect review of `card0`. -/
theorem claim6_witness :
    (1 ≤ (reviewedCard (fun _ => "") card0 5 0).box ∧
        (reviewedCard (fun _ => "") card0 5 0).box ≤ 5) ∧
      ([((5:Int), (0:ℝ))] ≠ [] → (0.1:ℚ) ≤
        (reviewedCard (fun _ => "") card0 5 0).strength) :=
  claim6_invariants (fun _ => "") card0 [(5, 0)]
    (reviewedCard (fun _ => "") card0 5 0) (by decide) (by decide)
    (by decide)
    (by simp [applyReviews,
          update_card_on_review_ok (fun _ => "") card0 5 0 (by omega)])

/-- Claim C7: a successful `update_card_on_review` call uses its single
internal clock sample everywhere: it sets `last_review` to that time,
sets `next_review = schedule_next_review(new_strength, now)` computed
from the updated strength, and appends exactly one history event
`{time, quality, old_strength, old_box, new_strength, new_box}` at the
end of the history list (initialized to `[]` when the record has no
history key), so the history grows by exactly one entry. -/
theorem claim7_fields_history (isoformat : ℝ → String) (card : Card)
    (q : Int) (sysNow : ℝ) (h0 : 0 ≤ q) (h5 : q ≤ 5) :
    ∃ c2, update_card_on_review isoformat card q sysNow = .ok c2 ∧
      c2.last_review = some (isoformat sysNow) ∧
      c2.next_review
        = some (schedule_next_review isoformat (c2.strength : ℝ) sysNow) ∧
      c2.history = some (card.history.getD [] ++
        [{ time := isoformat sysNow
           quality := q
           old_strength := card.strength
           old_box := card.box
           new_strength := c2.strength
           new_box := c2.box }]) ∧
      ∃ hist2, c2.history = some hist2 ∧
        hist2.length = (card.history.getD []).length + 1 := by
  refine ⟨_, update_card_on_review_ok isoformat card q sysNow (by omega),
    rfl, rfl, rfl, _, rfl, by simp⟩

/-- Witness for C7: `card0` reviewed with quality `3` at time `0`. -/
theorem claim7_witness :
    (0:Int) ≤ 3 ∧ (3:Int) ≤ 5 ∧
      ∃ c2, update_card_on_review (fun _ => "") card0 3 0 = .ok c2 ∧
        c2.last_review = some "" ∧
        c2.next_review
          = some (schedule_next_review (fun _ => "") (c2.strength : ℝ) 0) ∧
        c2.history = some (card0.history.getD [] ++
          [{ time := ""
             quality := 3
             old_strength := card0.strength
             old_box := card0.box
             new_strength := c2.strength
             new_box := c2.box }]) ∧
        ∃ hist2, c2.history = some hist2 ∧
          hist2.length = (card0.history.getD []).length + 1 :=
  ⟨by decide, by decide,
    claim7_fields_history (fun _ => "") card0 3 0 (by decide) (by decide)⟩

/-- Counterexample to C8 as stated: with the internal clock at `0` and a
`last_review` string parsing to `86400` (one day in the future, a case
§4.1 of the spec explicitly leaves uncapped), `calculate_retention`
returns `exp 1 > 1`, outside `[0,1]`, even though the strength `1` is
positive. -/
theorem claim8_counterexample :
    (0:ℝ) < 1 ∧
      1 < calculate_retention (fun _ => 86400) 1 (some "x") 0 := by
  refine ⟨by norm_num, ?_⟩
  have h : calculate_retention (fun _ => 86400) 1 (some "x") 0
      = Real.exp 1 := by
    rw [calculate_retention, if_neg (by simp [strTruthy])]
    show Real.exp (-((0 - (86400:ℝ)) / 86400.0) / max 1e-6 1)
      = Real.exp 1
    rw [max_eq_right (by norm_num : (1e-6:ℝ) ≤ 1)]
    norm_num
  rw [h]
  exact Real.one_lt_exp_iff.mpr one_pos

/-- Claim C8, amended: for every strength `> 0` and every present or
absent `last_review` whose parsed time does not lie in the future
(`fromisoformat s ≤ now`), the value returned by `calculate_retention`
lies in `[0,1]`; a future-dated `last_review` yields a value above `1`
(the documented uncapped edge case). -/
theorem claim8_amended (fromisoformat : String → ℝ) (strength : ℝ)
    (last_review : Option String) (sysNow : ℝ) (hs : 0 < strength)
    (hpast : ∀ s, last_review = some s → fromisoformat s ≤ sysNow) :
    0 ≤ calculate_retention fromisoformat strength last_review sysNow ∧
      calculate_retention fromisoformat strength last_review sysNow
        ≤ 1 := by
  rw [calculate_retention]
  cases last_review with
  | none =>
    rw [if_pos (by simp [strTruthy])]
    norm_num
  | some s =>
    by_cases he : s = ""
    · subst he
      rw [if_pos (by simp [strTruthy])]
      norm_num
    · rw [if_neg (by simp [strTruthy, he])]
      have hd : fromisoformat s ≤ sysNow := hpast s rfl
      constructor
      · exact (Real.exp_pos _).le
      · show Real.exp (-((sysNow - fromisoformat ((some s).getD ""))
            / 86400.0) / max 1e-6 strength) ≤ 1
        rw [Real.exp_le_one_iff]
        apply div_nonpos_of_nonpos_of_nonneg
        · have h1 : (0:ℝ) ≤ (sysNow - fromisoformat ((some s).getD ""))
              / 86400.0 := by
            apply div_nonneg
            · show (0:ℝ) ≤ sysNow - fromisoformat s
              linarith
            · norm_num
          linarith
        · exact le_max_of_le_left (by norm_num)

/-- Witness for the amended C8: strength `1`, no previous review. -/
theorem claim8_witness :
    (0:ℝ) < 1 ∧
      (0 ≤ calculate_retention (fun _ => 0) 1 none 0 ∧
        calculate_retention (fun _ => 0) 1 none 0 ≤ 1) :=
  ⟨by norm_num,
    claim8_amended (fun _ => 0) 1 none 0 (by norm_num)
      (fun s h => by simp at h)⟩

/-- Counterexample to C9 as stated: `calculate_retention` reads the
system clock internally (`datetime.utcnow()` on line 66 of the source)
rather than taking it as an argument, so two runs with identical
explicit arguments (strength `1`, `last_review = "x"` parsing to `0`)
performed with the wall clock at `0` and at `86400` produce different
outputs (`exp 0` versus `exp (-1)`). -/
theorem claim9_counterexample :
    calculate_retention (fun _ => 0) 1 (some "x") 0 ≠
      calculate_retention (fun _ => 0) 1 (some "x") 86400 := by
  have h1 : calculate_retention (fun _ => 0) 1 (some "x") 0
      = Real.exp 0 := by
    rw [calculate_retention, if_neg (by simp [strTruthy])]
    show Real.exp (-((0 - (0:ℝ)) / 86400.0) / max 1e-6 1) = Real.exp 0
    norm_num
  have h2 : calculate_retention (fun _ => 0) 1 (some "x") 86400
      = Real.exp (-1) := by
    rw [calculate_retention, if_neg (by simp [strTruthy])]
    show Real.exp (-((86400 - (0:ℝ)) / 86400.0) / max 1e-6 1)
      = Real.exp (-1)
    rw [max_eq_right (by norm_num : (1e-6:ℝ) ≤ 1)]
    norm_num
  rw [h1, h2, Ne, Real.exp_eq_exp]
  norm_num

/-- A formatting function that distinguishes the two clock samples used
in the amended C9 theorem. -/
noncomputable def isoTag : ℝ → String :=
  fun t => if t = 0 then "1970-01-01T00:00:00" else "1970-01-02T00:00:00"

/-- Claim C9, amended: `schedule_next_review` takes the current time as
an explicit `now` argument, but `calculate_retention` and
`update_card_on_review` sample `datetime.utcnow()` internally, so for
each of those two functions identical source-level arguments evaluated
at different wall-clock times can produce different results. -/
theorem claim9_amended :
    (calculate_retention (fun _ => 0) 1 (some "y") 0 ≠
        calculate_retention (fun _ => 0) 1 (some "y") 43200) ∧
    (update_card_on_review isoTag card0 3 0 ≠
        update_card_on_review isoTag card0 3 86400) := by
  constructor
  · have h1 : calculate_retention (fun _ => 0) 1 (some "y") 0
        = Real.exp 0 := by
      rw [calculate_retention, if_neg (by simp [strTruthy])]
      show Real.exp (-((0 - (0:ℝ)) / 86400.0) / max 1e-6 1) = Real.exp 0
      norm_num
    have h2 : calculate_retention (fun _ => 0) 1 (some "y") 43200
        = Real.exp (-(1 / 2)) := by
      rw [calculate_retention, if_neg (by simp [strTruthy])]
      show Real.exp (-((43200 - (0:ℝ)) / 86400.0) / max 1e-6 1)
        = Real.exp (-(1 / 2))
      rw [max_eq_right (by norm_num : (1e-6:ℝ) ≤ 1)]
      norm_num
    rw [h1, h2, Ne, Real.exp_eq_exp]
    norm_num
  · intro h
    rw [update_card_on_review_ok isoTag card0 3 0 (by omega),
      update_card_on_review_ok isoTag card0 3 86400 (by omega)] at h
    simp only [Except.ok.injEq] at h
    have hiso : isoTag 0 = isoTag 86400 := by
      have hlr : (reviewedCard isoTag card0 3 0).last_review
          = (reviewedCard isoTag card0 3 86400).last_review :=
        congrArg Card.last_review h
      simpa [reviewedCard] using hlr
    have e1 : isoTag 0 = "1970-01-01T00:00:00" := by
      rw [isoTag]
      show (if (0:ℝ) = 0 then "1970-01-01T00:00:00"
        else "1970-01-02T00:00:00") = "1970-01-01T00:00:00"
      rw [if_pos rfl]
    have e2 : isoTag 86400 = "1970-01-02T00:00:00" := by
      rw [isoTag]
      show (if (86400:ℝ) = 0 then "1970-01-01T00:00:00"
        else "1970-01-02T00:00:00") = "1970-01-02T00:00:00"
      rw [if_neg (by norm_num : ¬(86400:ℝ) = 0)]
    rw [e1, e2] at hiso
    exact absurd hiso (by decide)

end AMR
